import Mathlib

/-!
Shallow embedding of the xsynth core (Rust) for specification checking.

The definitions below are translated from the repository's source files:
  * `core/src/voice/sampler.rs`   — `F32BufferSampler`, `SampleReader`
  * `core/src/channel/channel_sf.rs` — `ChannelSoundfont::rebuild_matrix`
  * `core/src/soundfont/mod.rs`   — `SampleSoundfont::new`, spawner construction
  * `soundfonts/src/sfz/mod.rs`   — region parameter data

Machine `f32` values that are only stored and moved (sample data, envelope
fields) are modelled as `ℚ`; values produced by transcendental operations
(`powf` on the frequency table and the velocity curve) are modelled as `ℝ`.
`usize` arithmetic is modelled as `ℕ`, with `Option`-valued checked variants
where the Rust operation can underflow or divide by zero (which panics in
debug builds).
-/

namespace XSynth

/-- Loop mode enum from the `soundfonts` crate, as consumed by
`core/src/voice/sampler.rs` (`LoopMode::{NoLoop, OneShot, LoopContinuous, LoopSustain}`). -/
inductive LoopMode where
  | NoLoop
  | OneShot
  | LoopContinuous
  | LoopSustain
deriving DecidableEq

/-- Modelled from the spec: `LoopParams` (`crate::soundfont::LoopParams` is imported by
`sampler.rs` but its defining file is not among the sources). Spec §3:
`{offset: u32, start: u32, end: u32, mode}` with the invariant `start < end ≤ length`
for looping modes. -/
structure LoopParams where
  offset : ℕ
  start : ℕ
  «end» : ℕ
  mode : LoopMode
deriving DecidableEq

/-- `F32BufferSampler` from `sampler.rs`: wraps the sample array; `f32` entries are
modelled as `ℚ` (they are only stored and returned, never computed on here). -/
structure F32BufferSampler where
  data : List ℚ
deriving DecidableEq

/-- `F32BufferSampler::get`: `self.0.get(pos)` returns the element, or `0.0` when the
index is out of bounds. -/
def F32BufferSampler.get (s : F32BufferSampler) (pos : ℕ) : ℚ :=
  match s.data.get? pos with
  | some v => v
  | none => 0

/-- `F32BufferSampler::length`. -/
def F32BufferSampler.length (s : F32BufferSampler) : ℕ :=
  s.data.length

/-- `SampleReader` from `sampler.rs` (instantiated at the `F32` buffer sampler). -/
structure SampleReader where
  buffer : F32BufferSampler
  length : Option ℕ
  loop_params : LoopParams
deriving DecidableEq

/-- `SampleReader::new`: records `Some(buffer.length())`. -/
def SampleReader.new (buffer : F32BufferSampler) (loop_params : LoopParams) : SampleReader :=
  { buffer := buffer, length := some buffer.length, loop_params := loop_params }

/-- `SampleReader::get` from `sampler.rs`, lines 104-124.  `usize` arithmetic is `ℕ`
arithmetic here; the subtractions and the division in the looping branch are the truncated
`ℕ` operations (see `SampleReader.get?` for the fault-checked variant). -/
def SampleReader.get (r : SampleReader) (pos : ℕ) : ℚ :=
  let pos := pos + r.loop_params.offset
  match r.loop_params.mode with
  | LoopMode.NoLoop | LoopMode.OneShot => r.buffer.get pos
  | LoopMode.LoopContinuous | LoopMode.LoopSustain =>
    let e := r.loop_params.«end»
    let s := r.loop_params.start
    if pos > e then
      let tmp := pos - e
      let diff := e - s
      let loop_count := tmp / diff + 1
      let pos := pos - diff * loop_count
      r.buffer.get pos
    else
      r.buffer.get pos

/-- The index into the raw buffer that `SampleReader::get` reads (the loop-policy
position mapping). -/
def SampleReader.mapped_index (r : SampleReader) (pos : ℕ) : ℕ :=
  let pos := pos + r.loop_params.offset
  match r.loop_params.mode with
  | LoopMode.NoLoop | LoopMode.OneShot => pos
  | LoopMode.LoopContinuous | LoopMode.LoopSustain =>
    let e := r.loop_params.«end»
    let s := r.loop_params.start
    if pos > e then
      let tmp := pos - e
      let diff := e - s
      let loop_count := tmp / diff + 1
      pos - diff * loop_count
    else
      pos

theorem SampleReader.get_eq_mapped (r : SampleReader) (pos : ℕ) :
    r.get pos = r.buffer.get (r.mapped_index pos) := by
  unfold SampleReader.get SampleReader.mapped_index
  cases r.loop_params.mode <;> simp <;> split <;> rfl

/-- Checked `usize` subtraction: `none` models the Rust debug-build overflow panic. -/
def checked_sub (a b : ℕ) : Option ℕ :=
  if b ≤ a then some (a - b) else none

/-- Checked `usize` division: `none` models the Rust division-by-zero panic. -/
def checked_div (a b : ℕ) : Option ℕ :=
  if b = 0 then none else some (a / b)

/-- Fault-checked variant of `SampleReader::get`: every `usize` subtraction and division
of the source is performed with its checked counterpart, so `none` means the Rust code
would hit an arithmetic fault at that position. -/
def SampleReader.get? (r : SampleReader) (pos : ℕ) : Option ℚ :=
  let pos := pos + r.loop_params.offset
  match r.loop_params.mode with
  | LoopMode.NoLoop | LoopMode.OneShot => some (r.buffer.get pos)
  | LoopMode.LoopContinuous | LoopMode.LoopSustain =>
    let e := r.loop_params.«end»
    let s := r.loop_params.start
    if pos > e then do
      let tmp ← checked_sub pos e
      let diff ← checked_sub e s
      let lc ← checked_div tmp diff
      let p2 ← checked_sub pos (diff * (lc + 1))
      some (r.buffer.get p2)
    else
      some (r.buffer.get pos)

/-- Fault-checked variant of `SampleReader::is_past_end` (`sampler.rs`, lines 126-137).
The source computes `pos - self.loop_params.offset as usize` with unchecked `usize`
subtraction; `none` models the underflow fault when `pos < offset`. -/
def SampleReader.is_past_end? (r : SampleReader) (pos : ℕ) : Option Bool :=
  match r.loop_params.mode with
  | LoopMode.NoLoop | LoopMode.OneShot =>
    match r.length with
    | some len => do
      let d ← checked_sub pos r.loop_params.offset
      some (decide (d ≥ len))
    | none => some false
  | LoopMode.LoopContinuous | LoopMode.LoopSustain => some false

/-- Concrete reader for the C3 counterexample: buffer `[1, 2, 3]`, loop points
`start = 0 < end = 2 ≤ 3 = length`, `offset = 0`, mode `LoopContinuous`. -/
def c3Reader : SampleReader :=
  SampleReader.new ⟨[1, 2, 3]⟩ ⟨0, 0, 2, LoopMode.LoopContinuous⟩

/-- C3 counterexample: the claimed identity
`get(start + n*(end-start) + k) = get(start + k)` fails at `n = 1`, `k = 0`.
The source wraps only positions strictly greater than `end`, so the position
`start + 1*(end-start) + 0 = end` reads `buffer[end] = 3`, while
`get(start + 0)` reads `buffer[start] = 1`. -/
theorem c3_counterexample :
    ¬ c3Reader.get (0 + 1 * (2 - 0) + 0) = c3Reader.get (0 + 0) := by decide

/-- C3 (amended): for a `SampleReader` in `LoopContinuous` mode with
`start < end ≤ length` and `offset = 0`, the loop identity
`get(start + n*(end-start) + k) = get(start + k)` holds for every `n ≥ 0` and
`0 ≤ k < end - start` **except** the single corner `n = 1 ∧ k = 0` (where the
read position equals `end`, which the source does not wrap). -/
theorem c3_loop_identity (r : SampleReader) (n k : ℕ)
    (hmode : r.loop_params.mode = LoopMode.LoopContinuous)
    (hoff : r.loop_params.offset = 0)
    (hse : r.loop_params.start < r.loop_params.«end»)
    (hlen : r.loop_params.«end» ≤ r.buffer.length)
    (hk : k < r.loop_params.«end» - r.loop_params.start)
    (hnk : ¬(n = 1 ∧ k = 0)) :
    r.get (r.loop_params.start + n * (r.loop_params.«end» - r.loop_params.start) + k)
      = r.get (r.loop_params.start + k) := by
  rw [SampleReader.get_eq_mapped, SampleReader.get_eq_mapped]
  congr 1
  unfold SampleReader.mapped_index
  simp only [hmode, hoff, Nat.add_zero]
  rcases Nat.eq_zero_or_pos n with hn | hn
  · subst hn
    simp
  · set s := r.loop_params.start with hs
    set e := r.loop_params.«end» with he
    have hd : 0 < e - s := by omega
    have hgt : s + n * (e - s) + k > e := by
      rcases Nat.lt_or_ge n 2 with h2 | h2
      · have hn1 : n = 1 := by omega
        subst hn1
        have hk0 : k ≠ 0 := fun hk0 => hnk ⟨rfl, hk0⟩
        omega
      · have : 2 * (e - s) ≤ n * (e - s) := Nat.mul_le_mul_right _ h2
        omega
    have hrhs : ¬ s + k > e := by omega
    rw [if_pos hgt, if_neg hrhs]
    have hsub : s + n * (e - s) + k - e = (n - 1) * (e - s) + k := by
      have : n * (e - s) = (n - 1) * (e - s) + (e - s) := by
        have : n = (n - 1) + 1 := by omega
        nth_rewrite 1 [this]
        ring
      omega
    rw [hsub]
    have hdivk : k / (e - s) = 0 := Nat.div_eq_of_lt hk
    have hdiv : ((n - 1) * (e - s) + k) / (e - s) = n - 1 := by
      rw [Nat.mul_comm (n - 1) (e - s), Nat.add_comm, Nat.add_mul_div_left _ _ hd, hdivk,
        Nat.zero_add]
    rw [hdiv]
    have hrw : (e - s) * (n - 1 + 1) = n * (e - s) := by
      have : n - 1 + 1 = n := by omega
      rw [this, Nat.mul_comm]
    rw [hrw]
    omega

/-- Witness for `c3_loop_identity` at the concrete reader, `n = 2`, `k = 1`. -/
theorem c3_loop_identity_witness :
    (c3Reader.loop_params.mode = LoopMode.LoopContinuous
      ∧ c3Reader.loop_params.offset = 0
      ∧ c3Reader.loop_params.start < c3Reader.loop_params.«end»
      ∧ c3Reader.loop_params.«end» ≤ c3Reader.buffer.length
      ∧ 1 < c3Reader.loop_params.«end» - c3Reader.loop_params.start
      ∧ ¬((2 : ℕ) = 1 ∧ (1 : ℕ) = 0))
    ∧ c3Reader.get (c3Reader.loop_params.start
          + 2 * (c3Reader.loop_params.«end» - c3Reader.loop_params.start) + 1)
        = c3Reader.get (c3Reader.loop_params.start + 1) :=
  ⟨by decide,
    c3_loop_identity c3Reader 2 1 (by decide) (by decide) (by decide) (by decide) (by decide)
      (by decide)⟩

/-- Concrete reader for the C5 counterexample: `offset = 1`, mode `NoLoop`
(the looping invariant is vacuous), buffer `[0]`. -/
def c5Reader : SampleReader :=
  SampleReader.new ⟨[0]⟩ ⟨1, 0, 0, LoopMode.NoLoop⟩

/-- C5 counterexample: `SampleReader::is_past_end` faults for `pos` smaller than
`loop_params.offset`: at `pos = 0` with `offset = 1` the source's
`pos - self.loop_params.offset as usize` underflows (a panic in debug builds),
modelled by the checked evaluation returning `none`. -/
theorem c5_counterexample : c5Reader.is_past_end? 0 = none := by decide

/-- C5 (amended): under the documented invariant (for looping modes,
`start < end ≤ length`), `SampleReader::get` never faults and returns the stored
sample value when the mapped index lies inside the buffer and `0.0` when it lies
past the buffer end; `SampleReader::is_past_end` never faults in looping modes or
when `pos ≥ offset`, but its `usize` subtraction underflows when `pos < offset`
in the non-looping modes (see `c5_counterexample`). -/
theorem c5_no_fault_bounds (r : SampleReader) (pos : ℕ)
    (hinv : (r.loop_params.mode = LoopMode.LoopContinuous
        ∨ r.loop_params.mode = LoopMode.LoopSustain) →
      r.loop_params.start < r.loop_params.«end»
        ∧ r.loop_params.«end» ≤ r.buffer.length) :
    r.get? pos = some (r.get pos)
    ∧ (∀ q, r.buffer.data.get? (r.mapped_index pos) = some q → r.get pos = q)
    ∧ (r.buffer.data.length ≤ r.mapped_index pos → r.get pos = 0)
    ∧ ((r.loop_params.offset ≤ pos
          ∨ r.loop_params.mode = LoopMode.LoopContinuous
          ∨ r.loop_params.mode = LoopMode.LoopSustain) →
        (r.is_past_end? pos).isSome) := by
  refine ⟨?_, ?_, ?_, ?_⟩
  · -- `get` never faults: the checked evaluation agrees with the total model
    unfold SampleReader.get? SampleReader.get
    rcases hm : r.loop_params.mode with _ | _ | _ | _ <;> simp only []
    all_goals {
      have hse := hinv (by simp [hm])
      set p := pos + r.loop_params.offset
      set e := r.loop_params.«end»
      set s := r.loop_params.start
      split
      next hgt =>
        have h1 : e ≤ p := by omega
        have h2 : s ≤ e := by omega
        have hd : ¬ (e - s = 0) := by omega
        have hmul : (e - s) * ((p - e) / (e - s) + 1) ≤ p := by
          have := Nat.div_mul_le_self (p - e) (e - s)
          have hdist : (e - s) * ((p - e) / (e - s) + 1)
              = (p - e) / (e - s) * (e - s) + (e - s) := by ring
          omega
        simp [checked_sub, checked_div, h1, h2, hd, hmul]
      next => rfl
    }
  · -- in-bounds reads return the stored value
    intro q hq
    rw [SampleReader.get_eq_mapped]
    unfold F32BufferSampler.get
    rw [hq]
  · -- past-the-end reads return 0
    intro hlen
    rw [SampleReader.get_eq_mapped]
    unfold F32BufferSampler.get
    rw [List.get?_eq_none.mpr hlen]
  · -- `is_past_end` does not fault for `pos ≥ offset` or in looping modes
    intro hcase
    unfold SampleReader.is_past_end?
    rcases hm : r.loop_params.mode with _ | _ | _ | _
    case LoopContinuous => rfl
    case LoopSustain => rfl
    all_goals {
      rcases hl : r.length with _ | len
      · rfl
      · have hoff : r.loop_params.offset ≤ pos := by
          rcases hcase with h | h | h
          · exact h
          · rw [hm] at h; exact absurd h (by decide)
          · rw [hm] at h; exact absurd h (by decide)
        simp [checked_sub, hoff]
    }

/-- Witness for `c5_no_fault_bounds` at the concrete looping reader of C3 and `pos = 5`. -/
theorem c5_no_fault_bounds_witness :
    ((c3Reader.loop_params.mode = LoopMode.LoopContinuous
        ∨ c3Reader.loop_params.mode = LoopMode.LoopSustain) →
      c3Reader.loop_params.start < c3Reader.loop_params.«end»
        ∧ c3Reader.loop_params.«end» ≤ c3Reader.buffer.length)
    ∧ (c3Reader.get? 5 = some (c3Reader.get 5)
        ∧ (∀ q, c3Reader.buffer.data.get? (c3Reader.mapped_index 5) = some q →
            c3Reader.get 5 = q)
        ∧ (c3Reader.buffer.data.length ≤ c3Reader.mapped_index 5 → c3Reader.get 5 = 0)
        ∧ ((c3Reader.loop_params.offset ≤ 5
              ∨ c3Reader.loop_params.mode = LoopMode.LoopContinuous
              ∨ c3Reader.loop_params.mode = LoopMode.LoopSustain) →
            (c3Reader.is_past_end? 5).isSome)) :=
  ⟨by decide, c5_no_fault_bounds c3Reader 5 (by decide)⟩

/-! Channel dispatch matrix (`core/src/channel/channel_sf.rs`).  Spawners
(`Box<dyn VoiceSpawner>`) are opaque to the dispatch logic and are abstracted
by a type parameter `α`. -/

/-- The `SoundfontBase` trait as consumed by `channel_sf.rs`:
`get_attack_voice_spawners_at(bank, preset, key, vel)` and the release analogue. -/
structure SoundfontBase (α : Type) where
  get_attack_voice_spawners_at : ℕ → ℕ → ℕ → ℕ → List α
  get_release_voice_spawners_at : ℕ → ℕ → ℕ → ℕ → List α

/-- Modelled from the spec: `VoiceSpawnerMatrix` (its source file is not among the
sources; only its callers in `channel_sf.rs` are).  Spec §3: a 128×128 grid where
each cell stores two vectors of spawner references (attack, release). -/
structure VoiceSpawnerMatrix (α : Type) where
  attack : ℕ → ℕ → List α
  release : ℕ → ℕ → List α

/-- Modelled from the spec: a fresh matrix holds empty cells. -/
def VoiceSpawnerMatrix.new {α : Type} : VoiceSpawnerMatrix α :=
  ⟨fun _ _ => [], fun _ _ => []⟩

/-- Modelled from the spec: `set_spawners_attack(k, v, spawners)` stores the vector in
the attack cell at `(k, v)`. -/
def VoiceSpawnerMatrix.set_spawners_attack {α : Type} (m : VoiceSpawnerMatrix α)
    (k v : ℕ) (s : List α) : VoiceSpawnerMatrix α :=
  { m with attack := fun k' v' => if k' = k ∧ v' = v then s else m.attack k' v' }

/-- Modelled from the spec: `set_spawners_release(k, v, spawners)` stores the vector in
the release cell at `(k, v)`. -/
def VoiceSpawnerMatrix.set_spawners_release {α : Type} (m : VoiceSpawnerMatrix α)
    (k v : ℕ) (s : List α) : VoiceSpawnerMatrix α :=
  { m with release := fun k' v' => if k' = k ∧ v' = v then s else m.release k' v' }

/-- `ChannelSoundfont` from `channel_sf.rs`. -/
structure ChannelSoundfont (α : Type) where
  soundfonts : List (SoundfontBase α)
  matrix : VoiceSpawnerMatrix α
  curr_bank : Option ℕ
  curr_preset : Option ℕ

/-- `ChannelSoundfont::new`. -/
def ChannelSoundfont.new {α : Type} : ChannelSoundfont α :=
  { soundfonts := [], matrix := VoiceSpawnerMatrix.new, curr_bank := none, curr_preset := none }

/-- The `find_piano_attack` closure inside `rebuild_matrix`: the first non-empty
`(0, 0, k, v)` attack list over the soundfonts, in order. -/
def find_piano_attack {α : Type} (sfs : List (SoundfontBase α)) (k v : ℕ) :
    Option (List α) :=
  (sfs.map (fun sf => sf.get_attack_voice_spawners_at 0 0 k v)).find? (fun l => !l.isEmpty)

/-- The `find_piano_release` closure inside `rebuild_matrix`. -/
def find_piano_release {α : Type} (sfs : List (SoundfontBase α)) (k v : ℕ) :
    Option (List α) :=
  (sfs.map (fun sf => sf.get_release_voice_spawners_at 0 0 k v)).find? (fun l => !l.isEmpty)

/-- The `attack_spawners` computation inside `rebuild_matrix`: the per-soundfont
`(bank, preset)` lists, chained with the lazily evaluated piano fallback
(`iter::once_with(..).flatten()` contributes zero or one list), first non-empty one,
`unwrap_or_default`. -/
def attack_spawners {α : Type} (sfs : List (SoundfontBase α)) (bank preset k v : ℕ) :
    List α :=
  (((sfs.map (fun sf => sf.get_attack_voice_spawners_at bank preset k v))
      ++ (find_piano_attack sfs k v).toList).find? (fun l => !l.isEmpty)).getD []

/-- The `release_spawners` computation inside `rebuild_matrix`. -/
def release_spawners {α : Type} (sfs : List (SoundfontBase α)) (bank preset k v : ℕ) :
    List α :=
  (((sfs.map (fun sf => sf.get_release_voice_spawners_at bank preset k v))
      ++ (find_piano_release sfs k v).toList).find? (fun l => !l.isEmpty)).getD []

/-- One iteration of the inner loop of `rebuild_matrix`: store both computed vectors
at cell `(k, v)`. -/
def rebuild_cell {α : Type} (sfs : List (SoundfontBase α)) (bank preset : ℕ)
    (m : VoiceSpawnerMatrix α) (k v : ℕ) : VoiceSpawnerMatrix α :=
  (m.set_spawners_attack k v (attack_spawners sfs bank preset k v)).set_spawners_release
    k v (release_spawners sfs bank preset k v)

/-- `ChannelSoundfont::rebuild_matrix` (`channel_sf.rs`, lines 47-93): skip when the
current `(bank, preset)` already matches, otherwise fill every cell `k, v ∈ 0..128`
and record the new `(bank, preset)`. -/
def ChannelSoundfont.rebuild_matrix {α : Type} (ch : ChannelSoundfont α)
    (bank preset : ℕ) : ChannelSoundfont α :=
  if ch.curr_bank = some bank ∧ ch.curr_preset = some preset then ch
  else
    { ch with
      matrix := (List.range 128).foldl (fun m k =>
        (List.range 128).foldl (fun m v => rebuild_cell ch.soundfonts bank preset m k v) m)
        ch.matrix
      curr_bank := some bank
      curr_preset := some preset }

/-- `ChannelSoundfont::change_program`. -/
def ChannelSoundfont.change_program {α : Type} (ch : ChannelSoundfont α)
    (bank preset : ℕ) : ChannelSoundfont α :=
  ch.rebuild_matrix bank preset

/-- `ChannelSoundfont::set_soundfonts`: replace the stack, clear the current program,
rebuild at `(0, 0)`. -/
def ChannelSoundfont.set_soundfonts {α : Type} (ch : ChannelSoundfont α)
    (soundfonts : List (SoundfontBase α)) : ChannelSoundfont α :=
  ChannelSoundfont.rebuild_matrix
    { ch with soundfonts := soundfonts, curr_bank := none, curr_preset := none } 0 0

/-- Spec-side attack cell (claim C1, spec §4.6): the first non-empty per-soundfont
`(bank, preset)` list; if all are empty, the first non-empty `(0, 0)` list; otherwise
the empty vector. -/
def spec_attack_cell {α : Type} (sfs : List (SoundfontBase α)) (bank preset k v : ℕ) :
    List α :=
  match (sfs.map (fun sf => sf.get_attack_voice_spawners_at bank preset k v)).find?
      (fun l => !l.isEmpty) with
  | some l => l
  | none =>
    ((sfs.map (fun sf => sf.get_attack_voice_spawners_at 0 0 k v)).find?
      (fun l => !l.isEmpty)).getD []

/-- Spec-side release cell (claim C1). -/
def spec_release_cell {α : Type} (sfs : List (SoundfontBase α)) (bank preset k v : ℕ) :
    List α :=
  match (sfs.map (fun sf => sf.get_release_voice_spawners_at bank preset k v)).find?
      (fun l => !l.isEmpty) with
  | some l => l
  | none =>
    ((sfs.map (fun sf => sf.get_release_voice_spawners_at 0 0 k v)).find?
      (fun l => !l.isEmpty)).getD []

theorem attack_spawners_eq_spec {α : Type} (sfs : List (SoundfontBase α))
    (bank preset k v : ℕ) :
    attack_spawners sfs bank preset k v = spec_attack_cell sfs bank preset k v := by
  unfold attack_spawners spec_attack_cell find_piano_attack
  rw [List.find?_append]
  cases hmain : (sfs.map (fun sf => sf.get_attack_voice_spawners_at bank preset k v)).find?
      (fun l => !l.isEmpty) with
  | some l => rfl
  | none =>
    simp only [Option.none_or]
    cases hpiano : (sfs.map (fun sf => sf.get_attack_voice_spawners_at 0 0 k v)).find?
        (fun l => !l.isEmpty) with
    | some l =>
      have hl := List.find?_some hpiano
      simp [Option.toList, hl]
    | none => simp [Option.toList]

theorem release_spawners_eq_spec {α : Type} (sfs : List (SoundfontBase α))
    (bank preset k v : ℕ) :
    release_spawners sfs bank preset k v = spec_release_cell sfs bank preset k v := by
  unfold release_spawners spec_release_cell find_piano_release
  rw [List.find?_append]
  cases hmain : (sfs.map (fun sf => sf.get_release_voice_spawners_at bank preset k v)).find?
      (fun l => !l.isEmpty) with
  | some l => rfl
  | none =>
    simp only [Option.none_or]
    cases hpiano : (sfs.map (fun sf => sf.get_release_voice_spawners_at 0 0 k v)).find?
        (fun l => !l.isEmpty) with
    | some l =>
      have hl := List.find?_some hpiano
      simp [Option.toList, hl]
    | none => simp [Option.toList]

theorem rebuild_fold_inner {α : Type} (sfs : List (SoundfontBase α)) (bank preset : ℕ)
    (vs : List ℕ) (key k0 v0 : ℕ) (m : VoiceSpawnerMatrix α) :
    ((vs.foldl (fun m v => rebuild_cell sfs bank preset m key v) m).attack k0 v0
        = if k0 = key ∧ v0 ∈ vs then attack_spawners sfs bank preset k0 v0
          else m.attack k0 v0)
    ∧ ((vs.foldl (fun m v => rebuild_cell sfs bank preset m key v) m).release k0 v0
        = if k0 = key ∧ v0 ∈ vs then release_spawners sfs bank preset k0 v0
          else m.release k0 v0) := by
  induction vs generalizing m with
  | nil => simp
  | cons v vs ih =>
    simp only [List.foldl_cons]
    obtain ⟨iha, ihr⟩ := ih (rebuild_cell sfs bank preset m key v)
    have hcell_a : (rebuild_cell sfs bank preset m key v).attack k0 v0
        = if k0 = key ∧ v0 = v then attack_spawners sfs bank preset key v
          else m.attack k0 v0 := rfl
    have hcell_r : (rebuild_cell sfs bank preset m key v).release k0 v0
        = if k0 = key ∧ v0 = v then release_spawners sfs bank preset key v
          else m.release k0 v0 := rfl
    constructor
    · rw [iha]
      by_cases h1 : k0 = key ∧ v0 ∈ vs
      · rw [if_pos h1, if_pos ⟨h1.1, List.mem_cons_of_mem v h1.2⟩]
      · rw [if_neg h1, hcell_a]
        by_cases h2 : k0 = key ∧ v0 = v
        · obtain ⟨rfl, rfl⟩ := h2
          rw [if_pos ⟨rfl, rfl⟩, if_pos ⟨rfl, List.mem_cons_self v0 vs⟩]
        · have h3 : ¬(k0 = key ∧ v0 ∈ v :: vs) := by
            rintro ⟨hk, hmem⟩
            rcases List.mem_cons.mp hmem with hv | hv
            · exact h2 ⟨hk, hv⟩
            · exact h1 ⟨hk, hv⟩
          rw [if_neg h2, if_neg h3]
    · rw [ihr]
      by_cases h1 : k0 = key ∧ v0 ∈ vs
      · rw [if_pos h1, if_pos ⟨h1.1, List.mem_cons_of_mem v h1.2⟩]
      · rw [if_neg h1, hcell_r]
        by_cases h2 : k0 = key ∧ v0 = v
        · obtain ⟨rfl, rfl⟩ := h2
          rw [if_pos ⟨rfl, rfl⟩, if_pos ⟨rfl, List.mem_cons_self v0 vs⟩]
        · have h3 : ¬(k0 = key ∧ v0 ∈ v :: vs) := by
            rintro ⟨hk, hmem⟩
            rcases List.mem_cons.mp hmem with hv | hv
            · exact h2 ⟨hk, hv⟩
            · exact h1 ⟨hk, hv⟩
          rw [if_neg h2, if_neg h3]

theorem rebuild_fold_outer {α : Type} (sfs : List (SoundfontBase α)) (bank preset : ℕ)
    (ks vs : List ℕ) (k0 v0 : ℕ) (m : VoiceSpawnerMatrix α) :
    ((ks.foldl (fun m k => vs.foldl (fun m v => rebuild_cell sfs bank preset m k v) m) m).attack
          k0 v0
        = if k0 ∈ ks ∧ v0 ∈ vs then attack_spawners sfs bank preset k0 v0
          else m.attack k0 v0)
    ∧ ((ks.foldl (fun m k => vs.foldl (fun m v => rebuild_cell sfs bank preset m k v) m) m).release
          k0 v0
        = if k0 ∈ ks ∧ v0 ∈ vs then release_spawners sfs bank preset k0 v0
          else m.release k0 v0) := by
  induction ks generalizing m with
  | nil => simp
  | cons k ks ih =>
    simp only [List.foldl_cons]
    obtain ⟨iha, ihr⟩ := ih (vs.foldl (fun m v => rebuild_cell sfs bank preset m k v) m)
    obtain ⟨ja, jr⟩ := rebuild_fold_inner sfs bank preset vs k k0 v0 m
    constructor
    · rw [iha]
      by_cases h1 : k0 ∈ ks ∧ v0 ∈ vs
      · rw [if_pos h1, if_pos ⟨List.mem_cons_of_mem k h1.1, h1.2⟩]
      · rw [if_neg h1, ja]
        by_cases h2 : k0 = k ∧ v0 ∈ vs
        · obtain ⟨rfl, hm⟩ := h2
          rw [if_pos ⟨rfl, hm⟩, if_pos ⟨List.mem_cons_self k0 ks, hm⟩]
        · have h3 : ¬(k0 ∈ k :: ks ∧ v0 ∈ vs) := by
            rintro ⟨hk, hv⟩
            rcases List.mem_cons.mp hk with hk' | hk'
            · exact h2 ⟨hk', hv⟩
            · exact h1 ⟨hk', hv⟩
          rw [if_neg h2, if_neg h3]
    · rw [ihr]
      by_cases h1 : k0 ∈ ks ∧ v0 ∈ vs
      · rw [if_pos h1, if_pos ⟨List.mem_cons_of_mem k h1.1, h1.2⟩]
      · rw [if_neg h1, jr]
        by_cases h2 : k0 = k ∧ v0 ∈ vs
        · obtain ⟨rfl, hm⟩ := h2
          rw [if_pos ⟨rfl, hm⟩, if_pos ⟨List.mem_cons_self k0 ks, hm⟩]
        · have h3 : ¬(k0 ∈ k :: ks ∧ v0 ∈ vs) := by
            rintro ⟨hk, hv⟩
            rcases List.mem_cons.mp hk with hk' | hk'
            · exact h2 ⟨hk', hv⟩
            · exact h1 ⟨hk', hv⟩
          rw [if_neg h2, if_neg h3]

/-- C1: after `rebuild_matrix(bank, preset)` (performing a rebuild, i.e. `(bank, preset)`
differs from the current program), every matrix attack cell `(k, v)` with
`k, v ∈ 0..128` equals the first non-empty per-soundfont `(bank, preset)` attack list in
priority order, falling back to the first non-empty `(0, 0)` list, and otherwise the
empty vector; likewise for the release cells.  The matrix cells are total lists — there
is no `None`. -/
theorem c1_rebuild_matrix_cells {α : Type} (ch : ChannelSoundfont α) (bank preset k v : ℕ)
    (hguard : ¬(ch.curr_bank = some bank ∧ ch.curr_preset = some preset))
    (hk : k < 128) (hv : v < 128) :
    (ch.rebuild_matrix bank preset).matrix.attack k v
        = spec_attack_cell ch.soundfonts bank preset k v
    ∧ (ch.rebuild_matrix bank preset).matrix.release k v
        = spec_release_cell ch.soundfonts bank preset k v := by
  obtain ⟨ha, hr⟩ := rebuild_fold_outer ch.soundfonts bank preset (List.range 128)
    (List.range 128) k v ch.matrix
  have hmem : k ∈ List.range 128 ∧ v ∈ List.range 128 :=
    ⟨List.mem_range.mpr hk, List.mem_range.mpr hv⟩
  have hM : (ch.rebuild_matrix bank preset).matrix
      = (List.range 128).foldl (fun m k => (List.range 128).foldl
          (fun m v => rebuild_cell ch.soundfonts bank preset m k v) m) ch.matrix := by
    unfold ChannelSoundfont.rebuild_matrix
    rw [if_neg hguard]
  constructor
  · rw [hM, ha, if_pos hmem, attack_spawners_eq_spec]
  · rw [hM, hr, if_pos hmem, release_spawners_eq_spec]

/-- Concrete soundfont for the C1 witness: spawners are numbers; only `(0, 0)` has
non-empty attack lists. -/
def c1Soundfont : SoundfontBase ℕ :=
  { get_attack_voice_spawners_at := fun bank preset key vel =>
      if bank = 0 ∧ preset = 0 then [key + vel] else []
    get_release_voice_spawners_at := fun _ _ _ _ => [] }

/-- Concrete channel for the C1 witness. -/
def c1Channel : ChannelSoundfont ℕ :=
  { soundfonts := [c1Soundfont], matrix := VoiceSpawnerMatrix.new,
    curr_bank := none, curr_preset := none }

/-- Witness for `c1_rebuild_matrix_cells` at the concrete channel, program `(1, 2)`,
cell `(60, 100)`. -/
theorem c1_rebuild_matrix_cells_witness :
    (¬(c1Channel.curr_bank = some 1 ∧ c1Channel.curr_preset = some 2)
      ∧ (60 : ℕ) < 128 ∧ (100 : ℕ) < 128)
    ∧ ((c1Channel.rebuild_matrix 1 2).matrix.attack 60 100
          = spec_attack_cell c1Channel.soundfonts 1 2 60 100
        ∧ (c1Channel.rebuild_matrix 1 2).matrix.release 60 100
          = spec_release_cell c1Channel.soundfonts 1 2 60 100) :=
  ⟨⟨by decide, by decide, by decide⟩,
    c1_rebuild_matrix_cells c1Channel 1 2 60 100 (by decide) (by decide) (by decide)⟩

/-- C6: rebuilding twice in a row performs the matrix-filling work exactly once — when
`(bank, preset)` equals the current program the call returns the channel unchanged, so
the second of two consecutive `rebuild_matrix(bank, preset)` calls is the identity. -/
theorem c6_rebuild_matrix_idempotent {α : Type} (ch : ChannelSoundfont α)
    (bank preset : ℕ) :
    (∀ _ : ch.curr_bank = some bank ∧ ch.curr_preset = some preset,
      ch.rebuild_matrix bank preset = ch)
    ∧ (ch.rebuild_matrix bank preset).rebuild_matrix bank preset
        = ch.rebuild_matrix bank preset := by
  have hskip : ∀ c : ChannelSoundfont α,
      c.curr_bank = some bank ∧ c.curr_preset = some preset →
      c.rebuild_matrix bank preset = c := by
    intro c hc
    unfold ChannelSoundfont.rebuild_matrix
    rw [if_pos hc]
  refine ⟨fun h => hskip ch h, ?_⟩
  by_cases h : ch.curr_bank = some bank ∧ ch.curr_preset = some preset
  · rw [hskip ch h]
    exact hskip ch h
  · apply hskip
    constructor
    · show (ChannelSoundfont.rebuild_matrix ch bank preset).curr_bank = some bank
      unfold ChannelSoundfont.rebuild_matrix
      rw [if_neg h]
    · show (ChannelSoundfont.rebuild_matrix ch bank preset).curr_preset = some preset
      unfold ChannelSoundfont.rebuild_matrix
      rw [if_neg h]

/-- Concrete channel for the C6 witness: current program already `(3, 4)`. -/
def c6Channel : ChannelSoundfont ℕ :=
  { soundfonts := [c1Soundfont], matrix := VoiceSpawnerMatrix.new,
    curr_bank := some 3, curr_preset := some 4 }

/-- Witness for `c6_rebuild_matrix_idempotent` at the concrete channel and `(3, 4)`:
the skip branch fires and the channel is returned unchanged. -/
theorem c6_rebuild_matrix_idempotent_witness :
    (c6Channel.curr_bank = some 3 ∧ c6Channel.curr_preset = some 4)
    ∧ c6Channel.rebuild_matrix 3 4 = c6Channel :=
  ⟨by decide, (c6_rebuild_matrix_idempotent c6Channel 3 4).1 (by decide)⟩

/-! Sample soundfont loader (`core/src/soundfont/mod.rs` together with the region data
of `soundfonts/src/sfz/mod.rs`). -/

/-- `ChannelCount` (modelled from the spec: stream params are
`{sample_rate, channels}`; the defining file is not among the sources). -/
inductive ChannelCount where
  | Mono
  | Stereo
deriving DecidableEq

/-- `AudioStreamParams` (modelled from the spec: `{sample_rate, channel_count}`). -/
structure AudioStreamParams where
  sample_rate : ℕ
  channels : ChannelCount
deriving DecidableEq

/-- `AmpegEnvelopeParams` from `soundfonts/src/sfz/mod.rs` (`f32` fields as `ℚ`). -/
structure AmpegEnvelopeParams where
  ampeg_start : ℚ
  ampeg_delay : ℚ
  ampeg_attack : ℚ
  ampeg_hold : ℚ
  ampeg_decay : ℚ
  ampeg_sustain : ℚ
  ampeg_release : ℚ
deriving DecidableEq

/-- `RegionParams` with the fields consumed by `SampleSoundfont::new`
(`core/src/soundfont/mod.rs`): inclusive key and velocity ranges (iterated as
`RangeInclusive<u8>`), optional pitch keycenter and cutoff, the sample path and the
amp envelope.  Ranges are modelled as `(lo, hi)` pairs. -/
structure RegionParams where
  keyrange : ℕ × ℕ
  velrange : ℕ × ℕ
  pitch_keycenter : Option ℕ
  cutoff : Option ℚ
  sample_path : String
  loop_mode : LoopMode
  ampeg_envelope : AmpegEnvelopeParams
deriving DecidableEq

/-- The value list of a `RangeInclusive<u8>` `lo..=hi` (empty when `lo > hi`). -/
def range_inclusive (lo hi : ℕ) : List ℕ :=
  List.range' lo (hi + 1 - lo)

theorem mem_range_inclusive {lo hi x : ℕ} :
    x ∈ range_inclusive lo hi ↔ lo ≤ x ∧ x ≤ hi := by
  unfold range_inclusive
  rw [List.mem_range'_1]
  omega

/-- `EnvelopeDescriptor` from `core/src/voice` (`f32` fields as `ℚ`). -/
structure EnvelopeDescriptor where
  start_percent : ℚ
  delay : ℚ
  attack : ℚ
  hold : ℚ
  decay : ℚ
  sustain_percent : ℚ
  release : ℚ
deriving DecidableEq

/-- `envelope_descriptor_from_region_params` (`core/src/soundfont/mod.rs`,
lines 149-160). -/
def envelope_descriptor_from_region_params (region_params : RegionParams) :
    EnvelopeDescriptor :=
  let env := region_params.ampeg_envelope
  { start_percent := env.ampeg_start / 100
    delay := env.ampeg_delay
    attack := env.ampeg_attack
    hold := env.ampeg_hold
    decay := env.ampeg_decay
    sustain_percent := env.ampeg_sustain / 100
    release := max (env.ampeg_release / 4) 0.001 }

/-- Modelled from the spec: `EnvelopeParameters` — the descriptor compiled for a
stream sample rate (`to_envelope_params`; its source file is not among the sources,
spec §3 describes it as the stage table derived from the descriptor for the current
stream rate). -/
structure EnvelopeParameters where
  descriptor : EnvelopeDescriptor
  sample_rate : ℕ
deriving DecidableEq

/-- Modelled from the spec: `EnvelopeDescriptor::to_envelope_params`. -/
def EnvelopeDescriptor.to_envelope_params (d : EnvelopeDescriptor) (sample_rate : ℕ) :
    EnvelopeParameters :=
  { descriptor := d, sample_rate := sample_rate }

/-- C10: the compiled envelope descriptor's release time is
`max(ampeg_release / 4, 0.001)` (not the raw `ampeg_release`); delay, attack, hold and
decay pass through unchanged; the start and sustain percentages are divided by 100.
Consequently the release time is never below one millisecond. -/
theorem c10_envelope_descriptor (r : RegionParams) :
    (envelope_descriptor_from_region_params r).release
        = max (r.ampeg_envelope.ampeg_release / 4) 0.001
    ∧ (0.001 : ℚ) ≤ (envelope_descriptor_from_region_params r).release
    ∧ (envelope_descriptor_from_region_params r).delay = r.ampeg_envelope.ampeg_delay
    ∧ (envelope_descriptor_from_region_params r).attack = r.ampeg_envelope.ampeg_attack
    ∧ (envelope_descriptor_from_region_params r).hold = r.ampeg_envelope.ampeg_hold
    ∧ (envelope_descriptor_from_region_params r).decay = r.ampeg_envelope.ampeg_decay
    ∧ (envelope_descriptor_from_region_params r).start_percent
        = r.ampeg_envelope.ampeg_start / 100
    ∧ (envelope_descriptor_from_region_params r).sustain_percent
        = r.ampeg_envelope.ampeg_sustain / 100 :=
  ⟨rfl, le_max_right _ _, rfl, rfl, rfl, rfl, rfl, rfl⟩

/-- Modelled from the spec: the 128-entry 12-TET frequency table `helpers::FREQS`
(its source file is not among the sources; spec §4.4 names it "the 128-entry 12-TET
frequency table").  In 12-tone equal temperament referenced to A4 = MIDI key 69 at
440 Hz: `freq(k) = 440 · 2^((k − 69)/12)`. -/
noncomputable def FREQS (k : ℕ) : ℝ :=
  440 * (2 : ℝ) ^ (((k : ℝ) - 69) / 12)

theorem FREQS_pos (k : ℕ) : 0 < FREQS k := by
  unfold FREQS
  positivity

/-- `get_speed_mult_from_keys` (`core/src/soundfont/mod.rs`, lines 51-55):
`FREQS[key] / FREQS[base_key]`. -/
noncomputable def get_speed_mult_from_keys (key base_key : ℕ) : ℝ :=
  FREQS key / FREQS base_key

/-- `key_vel_to_index` (`core/src/soundfont/mod.rs`, lines 136-138). -/
def key_vel_to_index (key vel : ℕ) : ℕ :=
  key * 128 + vel

/-- `SampleVoiceSpawnerParams` (`core/src/soundfont/mod.rs`, lines 39-44).  The shared
sample data `Arc<[Arc<[f32]>]>` is a list of per-channel `ℚ` arrays; the shared
envelope handle is its compiled parameters value. -/
structure SampleVoiceSpawnerParams where
  speed_mult : ℝ
  cutoff : Option ℚ
  envelope : EnvelopeParameters
  sample : List (List ℚ)

/-- The deduplicated `(descriptor, compiled parameters)` list built by
`SampleSoundfont::new` (`unique_envelope_params`): descriptors are appended in region
order, skipping ones already present. -/
def unique_envelope_params (sample_rate : ℕ) (regions : List RegionParams) :
    List (EnvelopeDescriptor × EnvelopeParameters) :=
  regions.foldl (fun acc region =>
    let d := envelope_descriptor_from_region_params region
    if acc.any (fun e => e.1 = d) then acc
    else acc ++ [(d, d.to_envelope_params sample_rate)]) []

/-- The envelope-parameter lookup inside the region loop of `SampleSoundfont::new`:
`unique_envelope_params.iter().find(|e| e.0 == envelope).unwrap().1`.  The `unwrap`
never fires in the source because every region's descriptor was inserted; the default
supplied here coincides with the inserted value, keeping the function total. -/
def find_envelope_params (sample_rate : ℕ)
    (uniques : List (EnvelopeDescriptor × EnvelopeParameters))
    (d : EnvelopeDescriptor) : EnvelopeParameters :=
  (((uniques.find? (fun e => e.1 = d)).map Prod.snd).getD (d.to_envelope_params sample_rate))

/-- The deduplicated sample path set (`unique_sample_params`; a `HashSet` in the
source, modelled as a deduplicated list — only membership matters downstream). -/
def unique_sample_paths (regions : List RegionParams) : List String :=
  (regions.map (fun r => r.sample_path)).dedup

/-- The `samples[&params]` lookup in the region loop (a `HashMap` index in the source;
the key is always present because every referenced path was loaded). -/
def lookup_sample (samples : List (String × List (List ℚ))) (path : String) :
    List (List ℚ) :=
  (samples.lookup path).getD []

/-- The `SampleVoiceSpawnerParams` value built for one `(region, key)` inside the
region loop of `SampleSoundfont::new` (lines 221-249): the spawner parameters do not
depend on the velocity cell being written. -/
noncomputable def make_spawner_params (sample_rate : ℕ)
    (uniques : List (EnvelopeDescriptor × EnvelopeParameters))
    (samples : List (String × List (List ℚ)))
    (region : RegionParams) (key : ℕ) : SampleVoiceSpawnerParams :=
  { speed_mult := get_speed_mult_from_keys key (region.pitch_keycenter.getD key)
    cutoff := region.cutoff
    envelope := find_envelope_params sample_rate uniques
      (envelope_descriptor_from_region_params region)
    sample := lookup_sample samples region.sample_path }

/-- The dense spawner table: one optional parameter record per
`key_vel_to_index key vel` cell. -/
def SpawnerTable : Type := ℕ → Option SampleVoiceSpawnerParams

/-- The nested `for key in keyrange / for vel in velrange` loop of
`SampleSoundfont::new` for a single region: each covered cell is overwritten with the
region's spawner parameters. -/
noncomputable def write_region (sample_rate : ℕ)
    (uniques : List (EnvelopeDescriptor × EnvelopeParameters))
    (samples : List (String × List (List ℚ)))
    (t : SpawnerTable) (region : RegionParams) : SpawnerTable :=
  (range_inclusive region.keyrange.1 region.keyrange.2).foldl (fun t key =>
    (range_inclusive region.velrange.1 region.velrange.2).foldl (fun t vel =>
      fun i => if i = key_vel_to_index key vel then
          some (make_spawner_params sample_rate uniques samples region key)
        else t i) t) t

/-- The full `spawner_params_list` construction of `SampleSoundfont::new`: start from
all-`None`, write every region in order (later regions overwrite earlier ones). -/
noncomputable def build_spawner_params_list (sample_rate : ℕ)
    (samples : List (String × List (List ℚ)))
    (regions : List RegionParams) : SpawnerTable :=
  regions.foldl (write_region sample_rate (unique_envelope_params sample_rate regions) samples)
    (fun _ => none)

/-- `LoadSfzError` (`core/src/soundfont/mod.rs`, lines 162-169); the wrapped
`io::Error` and `AudioLoadError` payloads are opaque and modelled as numbers. -/
inductive LoadSfzError where
  | IOError (e : ℕ)
  | AudioLoadError (e : ℕ)
deriving DecidableEq

/-- Modelled from the spec: the IO environment `SampleSoundfont::new` runs against —
the outcome of `soundfonts::sfz::parse_soundfont` on the given path (which performs
file IO) and the outcome of `load_audio_file` per sample path (`audio.rs` is not among
the sources; spec §4.5 step 2 describes it as decode-or-fail per file). -/
structure LoadEnv where
  parse_result : Except ℕ (List RegionParams)
  load_audio : String → Except ℕ (List (List ℚ))

/-- The `.collect::<Result<HashMap<_, _>, _>>()` over the unique sample paths: load
each referenced file, stopping at the first failure. -/
def load_samples (env : LoadEnv) : List String → Except ℕ (List (String × List (List ℚ)))
  | [] => Except.ok []
  | p :: ps =>
    match env.load_audio p with
    | Except.error e => Except.error e
    | Except.ok s =>
      match load_samples env ps with
      | Except.error e => Except.error e
      | Except.ok rest => Except.ok ((p, s) :: rest)

/-- `SampleSoundfont` (`core/src/soundfont/mod.rs`, lines 140-143). -/
structure SampleSoundfont where
  spawner_params_list : SpawnerTable
  stream_params : AudioStreamParams

/-- Possible outcomes of `SampleSoundfont::new`: a panic (the mono guard), a
`LoadSfzError`, or a loaded soundfont. -/
inductive NewOutcome where
  | panicked (msg : String)
  | error (e : LoadSfzError)
  | ok (sf : SampleSoundfont)

/-- Whether the outcome is a successfully produced soundfont. -/
def NewOutcome.isOk : NewOutcome → Bool
  | NewOutcome.ok _ => true
  | _ => false

/-- `SampleSoundfont::new` (`core/src/soundfont/mod.rs`, lines 171-256): the mono
panic guard, then SFZ parsing (IO errors propagate), then sample decoding (decode
errors propagate), then the dense spawner table construction. -/
noncomputable def SampleSoundfont.new (env : LoadEnv) (stream_params : AudioStreamParams) :
    NewOutcome :=
  if stream_params.channels = ChannelCount.Mono then
    NewOutcome.panicked "Mono output is currently not supported"
  else
    match env.parse_result with
    | Except.error e => NewOutcome.error (LoadSfzError.IOError e)
    | Except.ok regions =>
      match load_samples env (unique_sample_paths regions) with
      | Except.error e => NewOutcome.error (LoadSfzError.AudioLoadError e)
      | Except.ok samples =>
        NewOutcome.ok
          { spawner_params_list :=
              build_spawner_params_list stream_params.sample_rate samples regions
            stream_params := stream_params }

/-- `SampledVoiceSpawner` (`core/src/soundfont/mod.rs`, lines 63-72). -/
structure SampledVoiceSpawner where
  speed_mult : ℝ
  cutoff : Option ℚ
  amp : ℝ
  volume_envelope_params : EnvelopeParameters
  samples : List (List ℚ)
  vel : ℕ
  stream_params : AudioStreamParams

/-- `SampledVoiceSpawner::new` (lines 74-88): the amplitude baked into the spawner is
`1.04^(vel − 127)` (real exponentiation models `f32::powf`). -/
noncomputable def SampledVoiceSpawner.new (params : SampleVoiceSpawnerParams) (vel : ℕ)
    (stream_params : AudioStreamParams) : SampledVoiceSpawner :=
  { speed_mult := params.speed_mult
    cutoff := params.cutoff
    amp := (1.04 : ℝ) ^ ((vel : ℝ) - 127)
    volume_envelope_params := params.envelope
    samples := params.sample
    vel := vel
    stream_params := stream_params }

/-- C9: with a mono stream configuration, `SampleSoundfont::new` panics with the exact
message `"Mono output is currently not supported"` before any file is read — the
outcome does not depend on the IO environment at all. -/
theorem c9_mono_panic (env : LoadEnv) (sp : AudioStreamParams)
    (h : sp.channels = ChannelCount.Mono) :
    SampleSoundfont.new env sp
        = NewOutcome.panicked "Mono output is currently not supported"
    ∧ ∀ env2 : LoadEnv, SampleSoundfont.new env sp = SampleSoundfont.new env2 sp := by
  have key : ∀ e : LoadEnv, SampleSoundfont.new e sp
      = NewOutcome.panicked "Mono output is currently not supported" := by
    intro e
    unfold SampleSoundfont.new
    rw [if_pos h]
  exact ⟨key env, fun env2 => (key env).trans (key env2).symm⟩

/-- IO environment used by several witnesses: parsing yields no regions, every sample
decodes to silence. -/
def emptyEnv : LoadEnv :=
  { parse_result := Except.ok [], load_audio := fun _ => Except.ok [] }

/-- Mono stream parameters for the C9 witness. -/
def monoParams : AudioStreamParams :=
  { sample_rate := 44100, channels := ChannelCount.Mono }

/-- Stereo stream parameters used by several witnesses. -/
def stereoParams : AudioStreamParams :=
  { sample_rate := 48000, channels := ChannelCount.Stereo }

/-- Witness for `c9_mono_panic` at a concrete environment and mono stream params. -/
theorem c9_mono_panic_witness :
    monoParams.channels = ChannelCount.Mono
    ∧ (SampleSoundfont.new emptyEnv monoParams
          = NewOutcome.panicked "Mono output is currently not supported"
        ∧ ∀ env2 : LoadEnv,
            SampleSoundfont.new emptyEnv monoParams
              = SampleSoundfont.new env2 monoParams) :=
  ⟨rfl, c9_mono_panic emptyEnv monoParams rfl⟩

/-- An environment whose SFZ parses to zero regions while every sample decode fails:
`SampleSoundfont::new` still succeeds, because no sample is ever referenced. -/
def noRegionsEnv : LoadEnv :=
  { parse_result := Except.ok [], load_audio := fun _ => Except.error 0 }

/-- C4 counterexample: when the parsed SFZ yields no regions, `SampleSoundfont::new`
returns `Ok` (an all-empty spawner table), not an error — `LoadSfzError` has no
"no regions" variant. -/
theorem c4_counterexample : (SampleSoundfont.new noRegionsEnv stereoParams).isOk = true := rfl

theorem load_samples_ok_iff (env : LoadEnv) (ps : List String) :
    (∃ rs, load_samples env ps = Except.ok rs)
      ↔ ∀ p ∈ ps, ∃ s, env.load_audio p = Except.ok s := by
  induction ps with
  | nil => simp [load_samples]
  | cons p ps ih =>
    simp only [load_samples, List.forall_mem_cons]
    cases hp : env.load_audio p with
    | error e => simp [hp]
    | ok s =>
      cases hq : load_samples env ps with
      | error e =>
        have hps : ¬ ∀ p ∈ ps, ∃ s, env.load_audio p = Except.ok s := by
          intro hall
          obtain ⟨rs, hrs⟩ := ih.mpr hall
          rw [hq] at hrs
          cases hrs
        simp [hp, hps]
      | ok rest =>
        have hps : ∀ p ∈ ps, ∃ s, env.load_audio p = Except.ok s := ih.mp ⟨rest, hq⟩
        constructor
        · intro _
          exact ⟨⟨s, rfl⟩, hps⟩
        · intro _
          exact ⟨(p, s) :: rest, rfl⟩

/-- C4 (amended): for a non-mono configuration, `SampleSoundfont::new` returns an
error exactly when the SFZ file cannot be read (IO error) or some referenced sample
fails to decode; no partially loaded value is produced in those cases.  When the
parsed SFZ yields **no** regions the loader does **not** error: it returns `Ok` with
an all-empty table (see `c4_counterexample`). -/
theorem c4_error_cases (env : LoadEnv) (sp : AudioStreamParams)
    (h : sp.channels ≠ ChannelCount.Mono) :
    ((∃ e, SampleSoundfont.new env sp = NewOutcome.error e)
      ↔ ((∃ e, env.parse_result = Except.error e)
          ∨ (∃ regions, env.parse_result = Except.ok regions
              ∧ ∃ p ∈ unique_sample_paths regions,
                  ∃ e, env.load_audio p = Except.error e)))
    ∧ (env.parse_result = Except.ok [] → (SampleSoundfont.new env sp).isOk = true) := by
  have hok : env.parse_result = Except.ok [] → (SampleSoundfont.new env sp).isOk = true := by
    intro hp
    unfold SampleSoundfont.new
    rw [if_neg h]
    simp only [hp]
    rfl
  refine ⟨?_, hok⟩
  cases hp : env.parse_result with
  | error e =>
    have hn : SampleSoundfont.new env sp = NewOutcome.error (LoadSfzError.IOError e) := by
      unfold SampleSoundfont.new
      rw [if_neg h]
      simp only [hp]
    constructor
    · intro _
      exact Or.inl ⟨e, rfl⟩
    · intro _
      exact ⟨LoadSfzError.IOError e, hn⟩
  | ok regions =>
    cases hl : load_samples env (unique_sample_paths regions) with
    | error e =>
      have hn : SampleSoundfont.new env sp
          = NewOutcome.error (LoadSfzError.AudioLoadError e) := by
        unfold SampleSoundfont.new
        rw [if_neg h]
        simp only [hp]
        rw [hl]
      constructor
      · intro _
        right
        refine ⟨regions, rfl, ?_⟩
        by_contra hc
        push_neg at hc
        have hall : ∀ p ∈ unique_sample_paths regions,
            ∃ s, env.load_audio p = Except.ok s := by
          intro p hpmem
          cases hload : env.load_audio p with
          | error e2 => exact absurd hload (hc p hpmem e2)
          | ok s => exact ⟨s, rfl⟩
        obtain ⟨rs, hrs⟩ := (load_samples_ok_iff env _).mpr hall
        rw [hl] at hrs
        cases hrs
      · intro _
        exact ⟨LoadSfzError.AudioLoadError e, hn⟩
    | ok samples =>
      have hn : SampleSoundfont.new env sp = NewOutcome.ok
          { spawner_params_list := build_spawner_params_list sp.sample_rate samples regions
            stream_params := sp } := by
        unfold SampleSoundfont.new
        rw [if_neg h]
        simp only [hp]
        rw [hl]
      constructor
      · rintro ⟨e, he⟩
        rw [hn] at he
        cases he
      · rintro (⟨e, he⟩ | ⟨regions2, hp2, pth, hpmem, e, he⟩)
        · cases he
        · injection hp2 with h2
          subst h2
          have hall := (load_samples_ok_iff env (unique_sample_paths regions)).mp ⟨samples, hl⟩
          obtain ⟨s, hs⟩ := hall pth hpmem
          rw [hs] at he
          cases he

/-- A region for the C4 witness. -/
def c4Region : RegionParams :=
  { keyrange := (60, 60), velrange := (0, 127), pitch_keycenter := none,
    cutoff := none, sample_path := "piano.wav", loop_mode := LoopMode.NoLoop,
    ampeg_envelope := ⟨0, 0, 0, 0, 0, 100, 1⟩ }

/-- An environment whose single region references a sample that fails to decode. -/
def failingSampleEnv : LoadEnv :=
  { parse_result := Except.ok [c4Region], load_audio := fun _ => Except.error 7 }

/-- Witness for `c4_error_cases` at a concrete failing environment. -/
theorem c4_error_cases_witness :
    stereoParams.channels ≠ ChannelCount.Mono
    ∧ (((∃ e, SampleSoundfont.new failingSampleEnv stereoParams = NewOutcome.error e)
        ↔ ((∃ e, failingSampleEnv.parse_result = Except.error e)
            ∨ (∃ regions, failingSampleEnv.parse_result = Except.ok regions
                ∧ ∃ p ∈ unique_sample_paths regions,
                    ∃ e, failingSampleEnv.load_audio p = Except.error e)))
      ∧ (failingSampleEnv.parse_result = Except.ok []
          → (SampleSoundfont.new failingSampleEnv stereoParams).isOk = true)) :=
  ⟨by decide, c4_error_cases failingSampleEnv stereoParams (by decide)⟩

/-- C7: the amplitude baked into a voice spawner is `1.04^(vel − 127)`; it is `1` at
velocity 127, below `10⁻²` at velocity 0, and monotonically non-decreasing in the
velocity. -/
theorem c7_velocity_amp (p : SampleVoiceSpawnerParams) (sp : AudioStreamParams) :
    (∀ vel : ℕ, (SampledVoiceSpawner.new p vel sp).amp = (1.04 : ℝ) ^ ((vel : ℝ) - 127))
    ∧ (SampledVoiceSpawner.new p 127 sp).amp = 1
    ∧ (SampledVoiceSpawner.new p 0 sp).amp < 1 / 100
    ∧ Monotone (fun vel : ℕ => (SampledVoiceSpawner.new p vel sp).amp) := by
  refine ⟨fun vel => rfl, ?_, ?_, ?_⟩
  · show (1.04 : ℝ) ^ (((127 : ℕ) : ℝ) - 127) = 1
    rw [show (((127 : ℕ) : ℝ) - 127) = 0 by norm_num, Real.rpow_zero]
  · show (1.04 : ℝ) ^ (((0 : ℕ) : ℝ) - 127) < 1 / 100
    rw [show (((0 : ℕ) : ℝ) - 127) = -((127 : ℕ) : ℝ) by norm_num,
      Real.rpow_neg (by norm_num : (0 : ℝ) ≤ 1.04), Real.rpow_natCast, one_div]
    apply inv_lt_inv_of_lt (by norm_num : (0 : ℝ) < 100)
    norm_num
  · intro v w hvw
    show (1.04 : ℝ) ^ (((v : ℕ) : ℝ) - 127) ≤ (1.04 : ℝ) ^ (((w : ℕ) : ℝ) - 127)
    rw [Real.rpow_le_rpow_left_iff (by norm_num : (1 : ℝ) < 1.04)]
    exact sub_le_sub_right (Nat.cast_le.mpr hvw) _

/-- Concrete spawner parameters for the C7 witness. -/
noncomputable def c7Params : SampleVoiceSpawnerParams :=
  { speed_mult := 1, cutoff := none,
    envelope := ⟨⟨0, 0, 0, 0, 0, 1, 1 / 1000⟩, 48000⟩, sample := [] }

/-- Witness for `c7_velocity_amp` at concrete parameters. -/
theorem c7_velocity_amp_witness :
    (∀ vel : ℕ, (SampledVoiceSpawner.new c7Params vel stereoParams).amp
        = (1.04 : ℝ) ^ ((vel : ℝ) - 127))
    ∧ (SampledVoiceSpawner.new c7Params 127 stereoParams).amp = 1
    ∧ (SampledVoiceSpawner.new c7Params 0 stereoParams).amp < 1 / 100
    ∧ Monotone (fun vel : ℕ => (SampledVoiceSpawner.new c7Params vel stereoParams).amp) :=
  c7_velocity_amp c7Params stereoParams

/-- C8: the 12-TET pitch ratio satisfies `speed_mult(k, k) = 1` and
`speed_mult(k+12, k) = 2` (well within the claimed `10⁻⁶`), and a region without a
`pitch_keycenter` compiles to `speed_mult = 1` on every cell it covers. -/
theorem c8_pitch_law (k : ℕ) (hk : k + 12 < 128) :
    get_speed_mult_from_keys k k = 1
    ∧ |get_speed_mult_from_keys (k + 12) k - 2| ≤ 1 / 1000000
    ∧ ∀ (sample_rate : ℕ) (uniques : List (EnvelopeDescriptor × EnvelopeParameters))
        (samples : List (String × List (List ℚ))) (r : RegionParams) (key : ℕ),
        r.pitch_keycenter = none →
        (make_spawner_params sample_rate uniques samples r key).speed_mult = 1 := by
  refine ⟨?_, ?_, ?_⟩
  · exact div_self (ne_of_gt (FREQS_pos k))
  · have hexp : (((k + 12 : ℕ) : ℝ) - 69) / 12 = ((k : ℝ) - 69) / 12 + 1 := by
      push_cast
      ring
    have h2 : FREQS (k + 12) = FREQS k * 2 := by
      unfold FREQS
      rw [hexp, Real.rpow_add (by norm_num : (0 : ℝ) < 2), Real.rpow_one]
      ring
    have hval : get_speed_mult_from_keys (k + 12) k = 2 := by
      unfold get_speed_mult_from_keys
      rw [h2, mul_comm, mul_div_assoc, div_self (ne_of_gt (FREQS_pos k)), mul_one]
    rw [hval]
    norm_num
  · intro sample_rate uniques samples r key hkc
    show get_speed_mult_from_keys key (r.pitch_keycenter.getD key) = 1
    rw [hkc]
    exact div_self (ne_of_gt (FREQS_pos key))

/-- Witness for `c8_pitch_law` at `k = 60` (middle C; one octave up doubles). -/
theorem c8_pitch_law_witness :
    ((60 : ℕ) + 12 < 128)
    ∧ (get_speed_mult_from_keys 60 60 = 1
        ∧ |get_speed_mult_from_keys (60 + 12) 60 - 2| ≤ 1 / 1000000
        ∧ ∀ (sample_rate : ℕ) (uniques : List (EnvelopeDescriptor × EnvelopeParameters))
            (samples : List (String × List (List ℚ))) (r : RegionParams) (key : ℕ),
            r.pitch_keycenter = none →
            (make_spawner_params sample_rate uniques samples r key).speed_mult = 1) :=
  ⟨by decide, c8_pitch_law 60 (by decide)⟩

theorem write_vel_fold (vels : List ℕ) (t : SpawnerTable) (key : ℕ)
    (val : Option SampleVoiceSpawnerParams) (k0 v0 : ℕ)
    (hv0 : v0 < 128) (hvels : ∀ v ∈ vels, v < 128) :
    (vels.foldl (fun t vel => fun i => if i = key_vel_to_index key vel then val else t i) t)
        (key_vel_to_index k0 v0)
      = if k0 = key ∧ v0 ∈ vels then val else t (key_vel_to_index k0 v0) := by
  induction vels generalizing t with
  | nil => simp
  | cons v vs ih =>
    simp only [List.foldl_cons]
    have hv : v < 128 := hvels v (List.mem_cons_self v vs)
    have hvs : ∀ x ∈ vs, x < 128 := fun x hx => hvels x (List.mem_cons_of_mem v hx)
    rw [ih _ hvs]
    by_cases h1 : k0 = key ∧ v0 ∈ vs
    · rw [if_pos h1, if_pos ⟨h1.1, List.mem_cons_of_mem v h1.2⟩]
    · rw [if_neg h1]
      by_cases h2 : key_vel_to_index k0 v0 = key_vel_to_index key v
      · have hkv : k0 = key ∧ v0 = v := by
          unfold key_vel_to_index at h2
          omega
        rw [if_pos h2, if_pos ⟨hkv.1, hkv.2 ▸ List.mem_cons_self v vs⟩]
      · have h3 : ¬(k0 = key ∧ v0 ∈ v :: vs) := by
          rintro ⟨hk, hmem⟩
          rcases List.mem_cons.mp hmem with rfl | hv'
          · exact h2 (by rw [hk])
          · exact h1 ⟨hk, hv'⟩
        rw [if_neg h2, if_neg h3]

theorem write_key_fold (ks vels : List ℕ) (t : SpawnerTable)
    (f : ℕ → Option SampleVoiceSpawnerParams) (k0 v0 : ℕ)
    (hv0 : v0 < 128) (hvels : ∀ v ∈ vels, v < 128) :
    (ks.foldl (fun t key => vels.foldl (fun t vel => fun i =>
        if i = key_vel_to_index key vel then f key else t i) t) t) (key_vel_to_index k0 v0)
      = if k0 ∈ ks ∧ v0 ∈ vels then f k0 else t (key_vel_to_index k0 v0) := by
  induction ks generalizing t with
  | nil => simp
  | cons k ks ih =>
    simp only [List.foldl_cons]
    rw [ih]
    by_cases h1 : k0 ∈ ks ∧ v0 ∈ vels
    · rw [if_pos h1, if_pos ⟨List.mem_cons_of_mem k h1.1, h1.2⟩]
    · rw [if_neg h1, write_vel_fold vels t k (f k) k0 v0 hv0 hvels]
      by_cases h2 : k0 = k ∧ v0 ∈ vels
      · obtain ⟨rfl, hm⟩ := h2
        rw [if_pos ⟨rfl, hm⟩, if_pos ⟨List.mem_cons_self k0 ks, hm⟩]
      · have h3 : ¬(k0 ∈ k :: ks ∧ v0 ∈ vels) := by
          rintro ⟨hk, hv⟩
          rcases List.mem_cons.mp hk with rfl | hk'
          · exact h2 ⟨rfl, hv⟩
          · exact h1 ⟨hk', hv⟩
        rw [if_neg h2, if_neg h3]

theorem write_region_char (sample_rate : ℕ)
    (uniques : List (EnvelopeDescriptor × EnvelopeParameters))
    (samples : List (String × List (List ℚ)))
    (t : SpawnerTable) (r : RegionParams) (k0 v0 : ℕ)
    (hv0 : v0 < 128) (hr : r.velrange.2 < 128) :
    write_region sample_rate uniques samples t r (key_vel_to_index k0 v0)
      = if k0 ∈ range_inclusive r.keyrange.1 r.keyrange.2
            ∧ v0 ∈ range_inclusive r.velrange.1 r.velrange.2
        then some (make_spawner_params sample_rate uniques samples r k0)
        else t (key_vel_to_index k0 v0) := by
  unfold write_region
  exact write_key_fold (range_inclusive r.keyrange.1 r.keyrange.2)
    (range_inclusive r.velrange.1 r.velrange.2) t
    (fun key => some (make_spawner_params sample_rate uniques samples r key)) k0 v0 hv0
    (fun v hv => by rw [mem_range_inclusive] at hv; omega)

theorem build_fold_char (sample_rate : ℕ)
    (uniques : List (EnvelopeDescriptor × EnvelopeParameters))
    (samples : List (String × List (List ℚ)))
    (regions : List RegionParams) (t : SpawnerTable) (k0 v0 : ℕ)
    (hv0 : v0 < 128) (hwf : ∀ r ∈ regions, r.velrange.2 < 128) :
    (regions.foldl (write_region sample_rate uniques samples) t) (key_vel_to_index k0 v0)
      = match regions.reverse.find? (fun r =>
            decide (k0 ∈ range_inclusive r.keyrange.1 r.keyrange.2
              ∧ v0 ∈ range_inclusive r.velrange.1 r.velrange.2)) with
        | some r => some (make_spawner_params sample_rate uniques samples r k0)
        | none => t (key_vel_to_index k0 v0) := by
  induction regions generalizing t with
  | nil => simp
  | cons r rs ih =>
    simp only [List.foldl_cons, List.reverse_cons]
    rw [ih (write_region sample_rate uniques samples t r)
      (fun x hx => hwf x (List.mem_cons_of_mem r hx))]
    rw [List.find?_append]
    cases hfind : rs.reverse.find? (fun r =>
        decide (k0 ∈ range_inclusive r.keyrange.1 r.keyrange.2
          ∧ v0 ∈ range_inclusive r.velrange.1 r.velrange.2)) with
    | some r2 => rfl
    | none =>
      have hwr := write_region_char sample_rate uniques samples t r k0 v0 hv0
        (hwf r (List.mem_cons_self r rs))
      simp only [Option.none_or, List.find?_singleton]
      by_cases hc : k0 ∈ range_inclusive r.keyrange.1 r.keyrange.2
          ∧ v0 ∈ range_inclusive r.velrange.1 r.velrange.2
      · rw [hwr, if_pos hc, if_pos (decide_eq_true hc)]
      · rw [hwr, if_neg hc, if_neg (by simpa using hc)]

/-- C2: for a `SampleSoundfont` successfully loaded from parsed regions (with the
key/velocity ranges inside the MIDI range `0..=127`), the table entry at
`key*128 + vel` is `Some` exactly when some region's `keyrange × velrange` contains
`(key, vel)`, and its value is the spawner parameters built from the **last** covering
region in the parsed list (last writer wins). -/
theorem c2_spawner_table (env : LoadEnv) (sp : AudioStreamParams) (sf : SampleSoundfont)
    (regions : List RegionParams) (samples : List (String × List (List ℚ)))
    (key vel : ℕ)
    (hch : sp.channels ≠ ChannelCount.Mono)
    (hparse : env.parse_result = Except.ok regions)
    (hload : load_samples env (unique_sample_paths regions) = Except.ok samples)
    (hnew : SampleSoundfont.new env sp = NewOutcome.ok sf)
    (hwf : ∀ r ∈ regions, r.velrange.2 < 128)
    (hkey : key < 128) (hvel : vel < 128) :
    ((sf.spawner_params_list (key_vel_to_index key vel)).isSome
      ↔ ∃ r ∈ regions, key ∈ range_inclusive r.keyrange.1 r.keyrange.2
          ∧ vel ∈ range_inclusive r.velrange.1 r.velrange.2)
    ∧ sf.spawner_params_list (key_vel_to_index key vel)
        = (regions.reverse.find? (fun r =>
            decide (key ∈ range_inclusive r.keyrange.1 r.keyrange.2
              ∧ vel ∈ range_inclusive r.velrange.1 r.velrange.2))).map
          (fun r => make_spawner_params sp.sample_rate
            (unique_envelope_params sp.sample_rate regions) samples r key) := by
  have hsf : sf.spawner_params_list
      = build_spawner_params_list sp.sample_rate samples regions := by
    have hn : SampleSoundfont.new env sp = NewOutcome.ok
        { spawner_params_list := build_spawner_params_list sp.sample_rate samples regions
          stream_params := sp } := by
      unfold SampleSoundfont.new
      rw [if_neg hch]
      simp only [hparse]
      rw [hload]
    rw [hnew] at hn
    injection hn with h1
    rw [h1]
  have heq : sf.spawner_params_list (key_vel_to_index key vel)
      = (regions.reverse.find? (fun r =>
          decide (key ∈ range_inclusive r.keyrange.1 r.keyrange.2
            ∧ vel ∈ range_inclusive r.velrange.1 r.velrange.2))).map
        (fun r => make_spawner_params sp.sample_rate
          (unique_envelope_params sp.sample_rate regions) samples r key) := by
    rw [hsf]
    unfold build_spawner_params_list
    rw [build_fold_char sp.sample_rate (unique_envelope_params sp.sample_rate regions)
      samples regions (fun _ => none) key vel hvel hwf]
    cases regions.reverse.find? (fun r =>
        decide (key ∈ range_inclusive r.keyrange.1 r.keyrange.2
          ∧ vel ∈ range_inclusive r.velrange.1 r.velrange.2)) with
    | some r => rfl
    | none => rfl
  refine ⟨?_, heq⟩
  rw [heq]
  simp only [Option.isSome_map', List.find?_isSome, List.mem_reverse, decide_eq_true_eq]

/-- First region for the C2 witness: keys 60–61, full velocity range, sample `a.wav`. -/
def c2RegionA : RegionParams :=
  { keyrange := (60, 61), velrange := (0, 127), pitch_keycenter := some 60,
    cutoff := none, sample_path := "a.wav", loop_mode := LoopMode.NoLoop,
    ampeg_envelope := ⟨0, 0, 0, 0, 0, 100, 1⟩ }

/-- Second region for the C2 witness: key 60, velocities 10–20, sample `b.wav` —
overlaps `c2RegionA` on those cells and, being later, wins them. -/
def c2RegionB : RegionParams :=
  { keyrange := (60, 60), velrange := (10, 20), pitch_keycenter := none,
    cutoff := none, sample_path := "b.wav", loop_mode := LoopMode.NoLoop,
    ampeg_envelope := ⟨0, 0, 0, 0, 0, 100, 2⟩ }

/-- IO environment for the C2 witness: two overlapping regions, all samples decode. -/
def c2Env : LoadEnv :=
  { parse_result := Except.ok [c2RegionA, c2RegionB]
    load_audio := fun _ => Except.ok [[0], [0]] }

/-- The loaded sample association list of `c2Env`. -/
def c2Samples : List (String × List (List ℚ)) :=
  [("a.wav", [[0], [0]]), ("b.wav", [[0], [0]])]

/-- The soundfont value produced by `SampleSoundfont::new` on `c2Env`. -/
noncomputable def c2Sf : SampleSoundfont :=
  { spawner_params_list :=
      build_spawner_params_list stereoParams.sample_rate c2Samples [c2RegionA, c2RegionB]
    stream_params := stereoParams }

/-- Witness for `c2_spawner_table` at the concrete two-region soundfont and cell
`(60, 15)` (covered by both regions; the later one wins). -/
theorem c2_spawner_table_witness :
    (stereoParams.channels ≠ ChannelCount.Mono
      ∧ c2Env.parse_result = Except.ok [c2RegionA, c2RegionB]
      ∧ load_samples c2Env (unique_sample_paths [c2RegionA, c2RegionB]) = Except.ok c2Samples
      ∧ SampleSoundfont.new c2Env stereoParams = NewOutcome.ok c2Sf
      ∧ (∀ r ∈ [c2RegionA, c2RegionB], r.velrange.2 < 128)
      ∧ (60 : ℕ) < 128 ∧ (15 : ℕ) < 128)
    ∧ (((c2Sf.spawner_params_list (key_vel_to_index 60 15)).isSome
        ↔ ∃ r ∈ [c2RegionA, c2RegionB],
            (60 : ℕ) ∈ range_inclusive r.keyrange.1 r.keyrange.2
              ∧ (15 : ℕ) ∈ range_inclusive r.velrange.1 r.velrange.2)
      ∧ c2Sf.spawner_params_list (key_vel_to_index 60 15)
          = ([c2RegionA, c2RegionB].reverse.find? (fun r =>
              decide ((60 : ℕ) ∈ range_inclusive r.keyrange.1 r.keyrange.2
                ∧ (15 : ℕ) ∈ range_inclusive r.velrange.1 r.velrange.2))).map
            (fun r => make_spawner_params stereoParams.sample_rate
              (unique_envelope_params stereoParams.sample_rate [c2RegionA, c2RegionB])
              c2Samples r 60)) :=
  ⟨⟨by decide, rfl, rfl, rfl, by decide, by decide, by decide⟩,
    c2_spawner_table c2Env stereoParams c2Sf [c2RegionA, c2RegionB] c2Samples 60 15
      (by decide) rfl rfl rfl (by decide) (by decide) (by decide)⟩

end XSynth
